import Mathlib

/-!
Verification of the chunked streaming audio-transcription pipeline
(`streaming_transcribe` in `back/backend/views/transcription.py`).

The pipeline is shallowly embedded as a pure Lean function over
- an `Env` describing the outcomes of the external calls
  (`whisper.load_model`, `ffmpeg.probe`, per-window extraction and
  transcription), and
- an explicit file-system state `FS` (the set of file paths present),
with the stream of server-sent events reified as a `List Event`.

Python floats are modelled as rationals (`ℚ`); `int()` truncation is
modelled by `pyInt`; `os.path.exists` / `os.remove` by list membership /
filtering.
-/

/-- File system state: the list of file paths currently present on disk. -/
abbrev FS : Type := List String

/-- Writing a file (ffmpeg `.output(...).run(overwrite_output=True)`):
the path becomes present on disk. -/
def fsWrite (p : String) (fs : FS) : FS :=
  if p ∈ fs then fs else p :: fs

/-- Removal of a file (os.remove): the path is no longer present on disk. -/
def fsRemove (p : String) (fs : FS) : FS :=
  (fs : List String).filter (fun q => q != p)

/-- Truncation toward zero, as Python int() applied to a float. -/
def pyInt (q : ℚ) : ℤ :=
  if 0 ≤ q then ⌊q⌋ else ⌈q⌉

/-- A word entry of the raw whisper result.  The code reads the fields
with `word.get("word", "")`, `word.get("start", 0)`, `word.get("end", 0)`,
so each field may be absent. -/
structure RawWord where
  word : Option String
  start : Option ℚ
  «end» : Option ℚ
deriving DecidableEq, Repr

/-- A segment of the raw whisper result: `segment["id"]`, `segment["text"]`,
`segment["start"]`, `segment["end"]` are accessed directly; `"words"` may be
absent (`if "words" in segment and segment["words"]`). -/
structure RawSegment where
  id : ℕ
  text : String
  start : ℚ
  «end» : ℚ
  words : Option (List RawWord)
deriving DecidableEq, Repr

/-- The raw result of `model.transcribe(segment_path, word_timestamps=True)`:
`result["text"]` and `result["segments"]`. -/
structure RawResult where
  text : String
  segments : List RawSegment
deriving DecidableEq, Repr

/-- An adjusted (source-global) word timing as built by the normalizer. -/
structure AdjWord where
  word : String
  start : ℚ
  «end» : ℚ
deriving DecidableEq, Repr

/-- An adjusted transcript segment as built in the per-window loop:
`id` is the string built as toString i ++ "-" ++ toString local id, timestamps are rebased by
`+ start_time`, and `words` is present only when the raw segment carried a
non-empty word list. -/
structure TranscriptSegment where
  id : String
  text : String
  start : ℚ
  «end» : ℚ
  words : Option (List AdjWord)
deriving DecidableEq, Repr

/-- One server-sent event of the stream.  A success event serializes the
`chunk_response` dict (keys `chunk_id`, `total_chunks`, `chunk_text`,
`segments`, `is_final`); an error event serializes a dict with the single
key `error`. -/
inductive Event where
  | chunk (chunk_id : ℕ) (total_chunks : ℤ) (chunk_text : String)
      (segments : List TranscriptSegment) (is_final : Bool)
  | error (msg : String)
deriving DecidableEq, Repr

/-- The set of JSON keys of the dict serialized for an event, as written
literally in the source. -/
def eventKeys : Event → List String
  | .chunk _ _ _ _ _ => ["chunk_id", "total_chunks", "chunk_text", "segments", "is_final"]
  | .error _ => ["error"]

/-- Outcome of the external calls made while processing one window:
the ffmpeg extraction may raise, then `model.transcribe` may raise,
otherwise a raw result is produced. -/
inductive WindowStep where
  | extractFail (msg : String)
  | transcribeFail (msg : String)
  | ok (result : RawResult)

/-- The external world of one run: whether `whisper.load_model` succeeds,
what `ffmpeg.probe` followed by the duration parse yields, and the
outcome of each window extraction/transcription. -/
structure Env where
  modelLoad : Except String Unit
  probe : Except String ℚ
  window : ℕ → WindowStep

/-- The chunk size in seconds: `chunk_duration = 30`. -/
def chunk_duration : ℚ := 30

/-- The chunk count: `total_chunks = int(duration / chunk_duration) + 1`. -/
def total_chunks (duration c : ℚ) : ℤ :=
  pyInt (duration / c) + 1

/-- Window start: `start_time = i * chunk_duration`. -/
def start_time (c : ℚ) (i : ℕ) : ℚ := i * c

/-- Window end: `end_time = min(start_time + chunk_duration, duration)`. -/
def end_time (duration c : ℚ) (i : ℕ) : ℚ :=
  min (start_time c i + c) duration

/-- The skip test of the loop:
`if end_time - start_time < 1.0 and i > 0: continue`. -/
def skipped (duration : ℚ) (i : ℕ) : Prop :=
  end_time duration chunk_duration i - start_time chunk_duration i < 1 ∧ 0 < i

instance (duration : ℚ) (i : ℕ) : Decidable (skipped duration i) :=
  inferInstanceAs (Decidable (_ ∧ _))

/-- Path of the segment artifact: `segment_path = f"{audio_path}_segment_{i}.wav"`. -/
def segment_path (audio_path : String) (i : ℕ) : String :=
  audio_path ++ "_segment_" ++ toString i ++ ".wav"

/-- Normalization of one raw word:
`{"word": word.get("word", ""), "start": word.get("start", 0) + start_time,
"end": word.get("end", 0) + start_time}`. -/
def adjustWord (st : ℚ) (w : RawWord) : AdjWord :=
  { word := w.word.getD ""
    start := w.start.getD 0 + st
    «end» := w.«end».getD 0 + st }

/-- Normalization of one raw segment for window `i` with window start `st`:
unique id built as toString i ++ "-" ++ toString local id, rebased by `+ start_time`,
and word-level data included iff `"words" in segment and segment["words"]`. -/
def adjustSegment (i : ℕ) (st : ℚ) (s : RawSegment) : TranscriptSegment :=
  { id := toString i ++ "-" ++ toString s.id
    text := s.text
    start := s.start + st
    «end» := s.«end» + st
    words :=
      match s.words with
      | some ws => if ws.isEmpty then none else some (ws.map (adjustWord st))
      | none => none }

/-- One iteration of the per-window loop (`for i in range(total_chunks)`),
acting on the file system and possibly yielding one event.  The inner
`try/except` catches any failure of extraction or transcription and yields
a dict with the single key error instead; the segment file is
removed only on the success path, before the success event is yielded. -/
def stepWindow (audio_path : String) (env : Env) (duration : ℚ) (tc : ℤ)
    (i : ℕ) (fs : FS) : Option Event × FS :=
  if skipped duration i then
    (none, fs)
  else
    let sp := segment_path audio_path i
    match env.window i with
    | .extractFail msg =>
        (some (.error ("Error processing chunk " ++ toString i ++ ": " ++ msg)), fs)
    | .transcribeFail msg =>
        (some (.error ("Error processing chunk " ++ toString i ++ ": " ++ msg)),
          fsWrite sp fs)
    | .ok r =>
        let segs := r.segments.map (adjustSegment i (start_time chunk_duration i))
        let fs1 := fsWrite sp fs
        let fs2 := if sp ∈ fs1 then fsRemove sp fs1 else fs1
        (some (.chunk i tc r.text segs (decide ((i : ℤ) = tc - 1))), fs2)

/-- The events of the per-window loop, one `Option Event` per index; the
event yielded for a window does not depend on the file-system state. -/
def windowEvent (env : Env) (duration : ℚ) (tc : ℤ) (i : ℕ) : Option Event :=
  if skipped duration i then
    none
  else
    match env.window i with
    | .extractFail msg =>
        some (.error ("Error processing chunk " ++ toString i ++ ": " ++ msg))
    | .transcribeFail msg =>
        some (.error ("Error processing chunk " ++ toString i ++ ": " ++ msg))
    | .ok r =>
        some (.chunk i tc r.text
          (r.segments.map (adjustSegment i (start_time chunk_duration i)))
          (decide ((i : ℤ) = tc - 1)))

/-- The whole per-window loop over a list of indices, threading the file
system and collecting the yielded events in order. -/
def runWindows (audio_path : String) (env : Env) (duration : ℚ) (tc : ℤ) :
    List ℕ → FS → List Event × FS
  | [], fs => ([], fs)
  | i :: rest, fs =>
      let s := stepWindow audio_path env duration tc i fs
      let r := runWindows audio_path env duration tc rest s.2
      (s.1.toList ++ r.1, r.2)

/-- The result of one full run of the generator: the events delivered to
the consumer, the final file-system state, and, when an exception escaped
the generator (possible only from `whisper.load_model`, which runs before
the `try`/`finally`), its message. -/
structure RunResult where
  events : List Event
  fs : FS
  escaped : Option String
deriving Repr

/-- The generator `streaming_transcribe(audio_path, delete_on_complete=True)`.
`whisper.load_model` runs before the `try`, so its failure escapes with no
event and no cleanup.  A probe failure is caught by the outer `except` and
yields the single fatal error event.  The `finally` removes the source file
iff `delete_on_complete and os.path.exists(audio_path)`. -/
def streaming_transcribe (audio_path : String) (delete_on_complete : Bool)
    (env : Env) (fs : FS) : RunResult :=
  match env.modelLoad with
  | .error msg => ⟨[], fs, some msg⟩
  | .ok _ =>
      let p : List Event × FS :=
        match env.probe with
        | .error msg => ([Event.error msg], fs)
        | .ok duration =>
            let tc := total_chunks duration chunk_duration
            runWindows audio_path env duration tc (List.range tc.toNat) fs
      let fs2 : FS :=
        if delete_on_complete = true ∧ audio_path ∈ p.2 then
          fsRemove audio_path p.2
        else p.2
      ⟨p.1, fs2, none⟩

/-- The podcast endpoint `transcribe_podcast_file` streams a downloaded file with
`streaming_transcribe(file_path, delete_on_complete=False)`. -/
def transcribe_podcast_stream (file_path : String) (env : Env) (fs : FS) : RunResult :=
  streaming_transcribe file_path false env fs

/-- The planner window sequence, read off the loop:
index, `start_time` and `end_time` for each `i in range(total_chunks)`. -/
def plan (duration c : ℚ) : List (ℕ × ℚ × ℚ) :=
  (List.range (total_chunks duration c).toNat).map
    (fun i => (i, start_time c i, end_time duration c i))

/-- The file-system state just before the finally clause runs: unchanged
when the probe failed, otherwise the state left by the per-window loop. -/
def preFinalFS (audio_path : String) (env : Env) (fs : FS) : FS :=
  match env.probe with
  | .error _ => fs
  | .ok duration =>
      (runWindows audio_path env duration (total_chunks duration chunk_duration)
        (List.range (total_chunks duration chunk_duration).toNat) fs).2

/-- A fixed raw engine result used in the concrete scenarios. -/
def rawHello : RawResult := ⟨"hi", []⟩

/-- Environment of the 65 s scenario: the model loads, the probe yields
65 s, and every window transcribes successfully. -/
def envOk65 : Env := ⟨.ok (), .ok 65, fun _ => .ok rawHello⟩

/-- Environment of the 30.5 s scenario (duration 61/2). -/
def envOk305 : Env := ⟨.ok (), .ok (61 / 2), fun _ => .ok rawHello⟩

/-- Environment in which transcription of every processed window raises. -/
def envFailT : Env := ⟨.ok (), .ok 10, fun _ => .transcribeFail "boom"⟩

/-- Environment in which the probe raises (corrupt file). -/
def envProbeFail : Env := ⟨.ok (), .error "corrupt", fun _ => .ok rawHello⟩

/-- Environment in which loading the whisper model raises. -/
def envLoadFail : Env := ⟨.error "no model", .ok 10, fun _ => .ok rawHello⟩

/-- Environment of the isolation scenario: duration 130 s gives five
windows; extraction of window 2 raises, all other windows succeed. -/
def envMixed : Env :=
  ⟨.ok (), .ok 130, fun i => if i = 2 then .extractFail "boom" else .ok rawHello⟩

/-- A concrete raw segment carrying one fully populated word and one word
with every field absent. -/
def rawSegW : RawSegment :=
  ⟨7, "hello world", 2, 3, some [⟨some "hello", some 2, some (5 / 2)⟩, ⟨none, none, none⟩]⟩

theorem mem_fsWrite {p q : String} {fs : FS} : p ∈ fsWrite q fs ↔ p = q ∨ p ∈ fs := by
  unfold fsWrite
  split_ifs with h
  · constructor
    · exact Or.inr
    · rintro (rfl | hp) <;> [exact h; exact hp]
  · simp

theorem mem_fsRemove {p q : String} {fs : FS} : p ∈ fsRemove q fs ↔ p ∈ fs ∧ p ≠ q := by
  simp [fsRemove, List.mem_filter, bne_iff_ne]

theorem segment_path_ne (a : String) (i : ℕ) : a ≠ segment_path a i := by
  intro h
  have hl := congrArg String.length h
  have h9 : "_segment_".length = 9 := rfl
  have h4 : ".wav".length = 4 := rfl
  simp [segment_path, String.length_append, h9, h4] at hl
  omega

theorem stepWindow_fst (a : String) (env : Env) (d : ℚ) (tc : ℤ) (i : ℕ) (fs : FS) :
    (stepWindow a env d tc i fs).1 = windowEvent env d tc i := by
  unfold stepWindow windowEvent
  split_ifs with h
  · rfl
  · cases env.window i <;> rfl

theorem runWindows_events (a : String) (env : Env) (d : ℚ) (tc : ℤ)
    (is : List ℕ) (fs : FS) :
    (runWindows a env d tc is fs).1 = is.filterMap (windowEvent env d tc) := by
  induction is generalizing fs with
  | nil => rfl
  | cons i rest ih =>
      rw [runWindows, List.filterMap_cons]
      rw [ih, stepWindow_fst]
      cases windowEvent env d tc i <;> simp

theorem stepWindow_mem {p a : String} {env : Env} {d : ℚ} {tc : ℤ} {i : ℕ} {fs : FS}
    (hne : p ≠ segment_path a i) :
    p ∈ (stepWindow a env d tc i fs).2 ↔ p ∈ fs := by
  unfold stepWindow
  split_ifs with h
  · rfl
  · cases env.window i with
    | extractFail msg => rfl
    | transcribeFail msg => simp [mem_fsWrite, hne]
    | ok r =>
        simp only []
        split_ifs with hmem
        · simp [mem_fsRemove, mem_fsWrite, hne]
        · simp [mem_fsWrite, hne]

theorem runWindows_mem {p a : String} {env : Env} {d : ℚ} {tc : ℤ} {is : List ℕ} {fs : FS}
    (hne : ∀ i ∈ is, p ≠ segment_path a i) :
    p ∈ (runWindows a env d tc is fs).2 ↔ p ∈ fs := by
  induction is generalizing fs with
  | nil => rfl
  | cons i rest ih =>
      rw [runWindows]
      rw [ih (fun j hj => hne j (List.mem_cons_of_mem i hj))]
      exact stepWindow_mem (hne i (List.mem_cons_self i rest))

theorem streaming_fs_eq (audio : String) (del : Bool) (env : Env) (fs : FS)
    (hm : env.modelLoad = .ok ()) :
    (streaming_transcribe audio del env fs).fs =
      if del = true ∧ audio ∈ preFinalFS audio env fs
      then fsRemove audio (preFinalFS audio env fs)
      else preFinalFS audio env fs := by
  unfold streaming_transcribe preFinalFS
  rw [hm]
  rcases hp : env.probe with msg | dd <;> rfl

theorem preFinal_mem {audio : String} {env : Env} {fs : FS} (hsrc : audio ∈ fs) :
    audio ∈ preFinalFS audio env fs := by
  unfold preFinalFS
  rcases env.probe with msg | dd
  · exact hsrc
  · exact (runWindows_mem (fun i _ => segment_path_ne audio i)).mpr hsrc

/-- C1 (counterexample): the claim that no segment artifact file remains on
disk after a full run is false.  With duration 10 s and a transcription
failure in window 0 the except-handler yields the error event without
removing the segment file, and the finally clause only deletes the source,
so the run ends with the window-0 artifact still on disk. -/
theorem artifact_survives_failed_window :
    (streaming_transcribe "a.mp3" true envFailT ["a.mp3"]).fs
      = [segment_path "a.mp3" 0]
  ∧ segment_path "a.mp3" 0 ∈ (streaming_transcribe "a.mp3" true envFailT ["a.mp3"]).fs := by
  have h : (streaming_transcribe "a.mp3" true envFailT ["a.mp3"]).fs
      = [segment_path "a.mp3" 0] := by
    norm_num [streaming_transcribe, envFailT, total_chunks, pyInt, chunk_duration,
      List.range_succ, runWindows, stepWindow, end_time, start_time, skipped]
    decide
  refine ⟨h, ?_⟩
  rw [h]
  exact List.mem_singleton.mpr rfl

/-- C1 (amended): a window segment artifact is deleted before the event is
emitted only on the success path; when transcription fails after
extraction, the artifact is not deleted and remains on disk. -/
theorem artifact_cleanup_on_success_only (audio : String) (env : Env) (d : ℚ)
    (tc : ℤ) (i : ℕ) (fs : FS) (h : ¬ skipped d i) :
    (∀ r, env.window i = .ok r →
       segment_path audio i ∉ (stepWindow audio env d tc i fs).2)
  ∧ (∀ msg, env.window i = .transcribeFail msg →
       segment_path audio i ∈ (stepWindow audio env d tc i fs).2) := by
  constructor
  · intro r hw
    unfold stepWindow
    rw [if_neg h, hw]
    simp only []
    rw [if_pos (mem_fsWrite.mpr (Or.inl rfl))]
    simp [mem_fsRemove]
  · intro msg hw
    unfold stepWindow
    rw [if_neg h, hw]
    exact mem_fsWrite.mpr (Or.inl rfl)

/-- Witness for C1 at window 0, duration 10 s. -/
theorem artifact_cleanup_witness :
    ¬ skipped 10 0
  ∧ (∀ r, envOk65.window 0 = .ok r →
       segment_path "a.mp3" 0 ∉ (stepWindow "a.mp3" envOk65 10 1 0 ["a.mp3"]).2)
  ∧ (∀ msg, envFailT.window 0 = .transcribeFail msg →
       segment_path "a.mp3" 0 ∈ (stepWindow "a.mp3" envFailT 10 1 0 ["a.mp3"]).2) := by
  have hns : ¬ skipped (10 : ℚ) 0 := fun hsk => absurd hsk.2 (lt_irrefl 0)
  exact ⟨hns,
    (artifact_cleanup_on_success_only "a.mp3" envOk65 10 1 0 ["a.mp3"] hns).1,
    (artifact_cleanup_on_success_only "a.mp3" envFailT 10 1 0 ["a.mp3"] hns).2⟩

/-- C2: per-window failure isolation.  When the model loads and the probe
succeeds, the event stream is exactly one optional event per planned index
in order, where the event of a window depends only on that window: a
failed non-skipped window yields the error event naming it, and every
other non-skipped window still yields its normal success event, so no
single window failure terminates the stream early. -/
theorem window_failure_isolation (audio : String) (del : Bool) (env : Env) (fs : FS)
    (d : ℚ) (hm : env.modelLoad = .ok ()) (hp : env.probe = .ok d) :
    (streaming_transcribe audio del env fs).events
      = (List.range (total_chunks d chunk_duration).toNat).filterMap
          (windowEvent env d (total_chunks d chunk_duration))
  ∧ (∀ i msg, ¬ skipped d i →
      env.window i = .extractFail msg ∨ env.window i = .transcribeFail msg →
      windowEvent env d (total_chunks d chunk_duration) i
        = some (.error ("Error processing chunk " ++ toString i ++ ": " ++ msg)))
  ∧ (∀ i r, ¬ skipped d i → env.window i = .ok r →
      windowEvent env d (total_chunks d chunk_duration) i
        = some (.chunk i (total_chunks d chunk_duration) r.text
            (r.segments.map (adjustSegment i (start_time chunk_duration i)))
            (decide ((i : ℤ) = total_chunks d chunk_duration - 1)))) := by
  refine ⟨?_, ?_, ?_⟩
  · unfold streaming_transcribe
    rw [hm, hp]
    exact runWindows_events audio env d (total_chunks d chunk_duration)
      (List.range (total_chunks d chunk_duration).toNat) fs
  · intro i msg hns hw
    unfold windowEvent
    rw [if_neg hns]
    rcases hw with hw | hw <;> rw [hw]
  · intro i r hns hw
    unfold windowEvent
    rw [if_neg hns, hw]

/-- Witness for C2: five windows of 130 s, extraction of window 2 fails. -/
theorem window_failure_isolation_witness :
    envMixed.modelLoad = .ok () ∧ envMixed.probe = .ok 130
  ∧ ((streaming_transcribe "a.mp3" true envMixed ["a.mp3"]).events
      = (List.range (total_chunks 130 chunk_duration).toNat).filterMap
          (windowEvent envMixed 130 (total_chunks 130 chunk_duration))
    ∧ (∀ i msg, ¬ skipped 130 i →
        envMixed.window i = .extractFail msg ∨ envMixed.window i = .transcribeFail msg →
        windowEvent envMixed 130 (total_chunks 130 chunk_duration) i
          = some (.error ("Error processing chunk " ++ toString i ++ ": " ++ msg)))
    ∧ (∀ i r, ¬ skipped 130 i → envMixed.window i = .ok r →
        windowEvent envMixed 130 (total_chunks 130 chunk_duration) i
          = some (.chunk i (total_chunks 130 chunk_duration) r.text
              (r.segments.map (adjustSegment i (start_time chunk_duration i)))
              (decide ((i : ℤ) = total_chunks 130 chunk_duration - 1))))) :=
  ⟨rfl, rfl, window_failure_isolation "a.mp3" true envMixed ["a.mp3"] 130 rfl rfl⟩

/-- C3: for every emitted success event, is_final is true iff its chunk
index equals total_chunks - 1; for duration 65 s three events are emitted
with is_final only on index 2, and for duration 30.5 s the single emitted
event (index 0) has is_final false because the final index 1 was skipped
(the comparison-based policy is preserved exactly). -/
theorem is_final_policy :
    (∀ (audio : String) (del : Bool) (env : Env) (fs : FS) (cid : ℕ) (tc : ℤ)
       (txt : String) (segs : List TranscriptSegment) (fin : Bool),
       Event.chunk cid tc txt segs fin ∈ (streaming_transcribe audio del env fs).events →
       (fin = true ↔ (cid : ℤ) = tc - 1))
  ∧ (streaming_transcribe "a.mp3" true envOk65 ["a.mp3"]).events
      = [Event.chunk 0 3 "hi" [] false, Event.chunk 1 3 "hi" [] false,
         Event.chunk 2 3 "hi" [] true]
  ∧ (streaming_transcribe "a.mp3" true envOk305 ["a.mp3"]).events
      = [Event.chunk 0 2 "hi" [] false] := by
  refine ⟨?_, ?_, ?_⟩
  · intro audio del env fs cid tc txt segs fin hmem
    rcases henv : env.modelLoad with m | u
    · simp [streaming_transcribe, henv] at hmem
    · rcases hp : env.probe with m | d
      · simp [streaming_transcribe, henv, hp] at hmem
      · have hev : (streaming_transcribe audio del env fs).events
            = (List.range (total_chunks d chunk_duration).toNat).filterMap
                (windowEvent env d (total_chunks d chunk_duration)) := by
          unfold streaming_transcribe
          rw [henv, hp]
          exact runWindows_events audio env d (total_chunks d chunk_duration)
            (List.range (total_chunks d chunk_duration).toNat) fs
        rw [hev, List.mem_filterMap] at hmem
        obtain ⟨i, -, hwe⟩ := hmem
        unfold windowEvent at hwe
        by_cases hs : skipped d i
        · rw [if_pos hs] at hwe
          exact absurd hwe (by simp)
        · rw [if_neg hs] at hwe
          rcases hw : env.window i with m | m | r <;> rw [hw] at hwe <;> simp at hwe
          obtain ⟨hi, htc, -, -, hfin⟩ := hwe
          subst hi
          rw [← htc, ← hfin]
          simp
  · norm_num [streaming_transcribe, envOk65, rawHello, total_chunks, pyInt,
      chunk_duration, List.range_succ, runWindows, stepWindow, end_time, start_time,
      skipped, adjustSegment]
  · norm_num [streaming_transcribe, envOk305, rawHello, total_chunks, pyInt,
      chunk_duration, List.range_succ, runWindows, stepWindow, end_time, start_time,
      skipped, adjustSegment]

/-- Witness for C3: the final event of the 65 s scenario. -/
theorem is_final_policy_witness :
    Event.chunk 2 3 "hi" [] true ∈ (streaming_transcribe "a.mp3" true envOk65 ["a.mp3"]).events
  ∧ (true = true ↔ (2 : ℤ) = 3 - 1) := by
  have hmem : Event.chunk 2 3 "hi" [] true
      ∈ (streaming_transcribe "a.mp3" true envOk65 ["a.mp3"]).events := by
    rw [is_final_policy.2.1]
    simp
  exact ⟨hmem, is_final_policy.1 "a.mp3" true envOk65 ["a.mp3"] 2 3 "hi" [] true hmem⟩

/-- C4: for duration d at least 0 and chunk length c greater than 0, the
planner computes total_chunks as floor(d / c) + 1, lists the windows in
strictly increasing index order, window i spans from i*c to
min((i+1)*c, d), and the windows cover the interval from 0 to d with no
gaps and no overlaps (each point lies in exactly one window).  Planning
is a pure function of d and c by construction. -/
theorem planner_windows (d c : ℚ) (hd : 0 ≤ d) (hc : 0 < c) :
    total_chunks d c = ⌊d / c⌋ + 1
  ∧ (plan d c).map Prod.fst = List.range (total_chunks d c).toNat
  ∧ (∀ i : ℕ, start_time c i = i * c ∧ end_time d c i = min (((i : ℚ) + 1) * c) d)
  ∧ ∀ x : ℚ, 0 ≤ x → x < d →
      ∃! i : ℕ, i < (total_chunks d c).toNat ∧ start_time c i ≤ x ∧ x < end_time d c i := by
  have htc : total_chunks d c = ⌊d / c⌋ + 1 := by
    unfold total_chunks pyInt
    rw [if_pos (div_nonneg hd hc.le)]
  refine ⟨htc, ?_, ?_, ?_⟩
  · simp [plan, Function.comp_def]
  · intro i
    refine ⟨rfl, ?_⟩
    unfold end_time start_time
    ring_nf
  · intro x hx hxd
    have hq0 : (0 : ℚ) ≤ x / c := div_nonneg hx hc.le
    have hn0 : 0 ≤ ⌊x / c⌋ := Int.floor_nonneg.mpr hq0
    have hcast : ((⌊x / c⌋.toNat : ℕ) : ℚ) = ((⌊x / c⌋ : ℤ) : ℚ) := by
      exact_mod_cast Int.toNat_of_nonneg hn0
    refine ⟨⌊x / c⌋.toNat, ⟨⟨?_, ?_, ?_⟩, ?_⟩⟩
    · have hdiv : x / c ≤ d / c := by gcongr
      have hmono : ⌊x / c⌋ ≤ ⌊d / c⌋ := Int.floor_le_floor hdiv
      rw [htc]
      omega
    · unfold start_time
      rw [hcast]
      exact (le_div_iff₀ hc).mp (Int.floor_le (x / c))
    · unfold end_time start_time
      rw [lt_min_iff]
      refine ⟨?_, hxd⟩
      rw [hcast]
      have h1 : x / c < ⌊x / c⌋ + 1 := Int.lt_floor_add_one (x / c)
      have h2 : x < ((⌊x / c⌋ : ℚ) + 1) * c := (div_lt_iff₀ hc).mp h1
      rw [add_mul, one_mul] at h2
      linarith
    · rintro j ⟨hj1, hj2, hj3⟩
      unfold start_time at hj2
      unfold end_time start_time at hj3
      rw [lt_min_iff] at hj3
      obtain ⟨hj3a, -⟩ := hj3
      have ha : (j : ℚ) ≤ x / c := (le_div_iff₀ hc).mpr hj2
      have hb : x / c < (j : ℚ) + 1 := by
        rw [div_lt_iff₀ hc, add_mul, one_mul]
        exact hj3a
      have hfl : ⌊x / c⌋ = (j : ℤ) := by
        rw [Int.floor_eq_iff]
        constructor
        · exact_mod_cast ha
        · exact_mod_cast hb
      omega

/-- Witness for C4 at d = 65, c = 30. -/
theorem planner_windows_witness :
    (0 : ℚ) ≤ 65 ∧ (0 : ℚ) < 30
  ∧ (total_chunks 65 30 = ⌊(65 : ℚ) / 30⌋ + 1
    ∧ (plan 65 30).map Prod.fst = List.range (total_chunks 65 30).toNat
    ∧ (∀ i : ℕ, start_time 30 i = i * 30
        ∧ end_time 65 30 i = min (((i : ℚ) + 1) * 30) 65)
    ∧ ∀ x : ℚ, 0 ≤ x → x < 65 →
        ∃! i : ℕ, i < (total_chunks 65 30).toNat
          ∧ start_time 30 i ≤ x ∧ x < end_time 65 30 i) :=
  ⟨by norm_num, by norm_num, planner_windows 65 30 (by norm_num) (by norm_num)⟩

/-- C5: a planned window whose span is under 1 second and whose index is
positive is skipped entirely, leaving the file system untouched and
yielding no event; a window with index 0 is never skipped and always
yields an event. -/
theorem skip_rule (audio : String) (env : Env) (d : ℚ) (tc : ℤ) (i : ℕ) (fs : FS) :
    (skipped d i → stepWindow audio env d tc i fs = (none, fs)
       ∧ windowEvent env d tc i = none)
  ∧ ¬ skipped d 0
  ∧ windowEvent env d tc 0 ≠ none := by
  refine ⟨fun h => ⟨?_, ?_⟩, ?_, ?_⟩
  · unfold stepWindow; rw [if_pos h]
  · unfold windowEvent; rw [if_pos h]
  · rintro ⟨-, h0⟩; exact absurd h0 (lt_irrefl 0)
  · unfold windowEvent
    rw [if_neg (fun h : skipped d 0 => absurd h.2 (lt_irrefl 0))]
    cases env.window 0 <;> simp

/-- Witness for C5: the 0.5 s window 1 of the 30.5 s scenario is skipped,
and window 0 is not. -/
theorem skip_rule_witness :
    skipped (61 / 2) 1
  ∧ stepWindow "a.mp3" envOk305 (61 / 2) 2 1 ["a.mp3"] = (none, ["a.mp3"])
  ∧ windowEvent envOk305 (61 / 2) 2 1 = none
  ∧ ¬ skipped (61 / 2) 0
  ∧ windowEvent envOk305 (61 / 2) 2 0 ≠ none := by
  have hs : skipped (61 / 2) 1 := by
    constructor
    · norm_num [end_time, start_time, chunk_duration]
    · norm_num
  have h := skip_rule "a.mp3" envOk305 (61 / 2) 2 1 ["a.mp3"]
  have h0 := skip_rule "a.mp3" envOk305 (61 / 2) 2 0 ["a.mp3"]
  exact ⟨hs, (h.1 hs).1, (h.1 hs).2, h0.2.1, h0.2.2⟩

/-- C6: the normalizer builds the global id from the window index and the
local segment id, rebases segment start/end and each word timing by the
window start, includes word-level data exactly when the engine supplied a
non-empty word list, preserves absent or empty word data as absent, and
is a total pure function. -/
theorem normalizer_rebasing (i : ℕ) (st : ℚ) (s : RawSegment) (w : RawWord) :
    (adjustSegment i st s).id = toString i ++ "-" ++ toString s.id
  ∧ (adjustSegment i st s).text = s.text
  ∧ (adjustSegment i st s).start = s.start + st
  ∧ (adjustSegment i st s).«end» = s.«end» + st
  ∧ (∀ ws, s.words = some ws → ws ≠ [] →
      (adjustSegment i st s).words = some (ws.map (adjustWord st)))
  ∧ (s.words = none → (adjustSegment i st s).words = none)
  ∧ (s.words = some [] → (adjustSegment i st s).words = none)
  ∧ (adjustWord st w).word = w.word.getD ""
  ∧ (adjustWord st w).start = w.start.getD 0 + st
  ∧ (adjustWord st w).«end» = w.«end».getD 0 + st := by
  refine ⟨rfl, rfl, rfl, rfl, ?_, ?_, ?_, rfl, rfl, rfl⟩
  · intro ws hws hne
    simp [adjustSegment, hws, List.isEmpty_iff, hne]
  · intro hw
    simp [adjustSegment, hw]
  · intro hw
    simp [adjustSegment, hw]

/-- Witness for C6 on a concrete raw segment of window 1 at start 30 s. -/
theorem normalizer_rebasing_witness :
    (adjustSegment 1 30 rawSegW).id = toString 1 ++ "-" ++ toString rawSegW.id
  ∧ (adjustSegment 1 30 rawSegW).start = rawSegW.start + 30
  ∧ (adjustSegment 1 30 rawSegW).«end» = rawSegW.«end» + 30
  ∧ rawSegW.words
      = some [⟨some "hello", some 2, some (5 / 2)⟩, ⟨none, none, none⟩]
  ∧ (adjustSegment 1 30 rawSegW).words
      = some ([(⟨some "hello", some 2, some (5 / 2)⟩ : RawWord),
               ⟨none, none, none⟩].map (adjustWord 30))
  ∧ (adjustWord 30 ⟨some "hello", some 2, some (5 / 2)⟩).start
      = (some (2 : ℚ)).getD 0 + 30
  ∧ (adjustWord 30 ⟨some "hello", some 2, some (5 / 2)⟩).«end»
      = (some ((5 : ℚ) / 2)).getD 0 + 30 :=
  ⟨(normalizer_rebasing 1 30 rawSegW ⟨some "hello", some 2, some (5 / 2)⟩).1,
   (normalizer_rebasing 1 30 rawSegW ⟨some "hello", some 2, some (5 / 2)⟩).2.2.1,
   (normalizer_rebasing 1 30 rawSegW ⟨some "hello", some 2, some (5 / 2)⟩).2.2.2.1,
   rfl,
   (normalizer_rebasing 1 30 rawSegW ⟨some "hello", some 2, some (5 / 2)⟩).2.2.2.2.1
     _ rfl (by simp),
   (normalizer_rebasing 1 30 rawSegW ⟨some "hello", some 2, some (5 / 2)⟩).2.2.2.2.2.2.2.2.1,
   (normalizer_rebasing 1 30 rawSegW ⟨some "hello", some 2, some (5 / 2)⟩).2.2.2.2.2.2.2.2.2⟩

/-- C7: when the model loads but the probe fails, the run emits exactly
the single fatal error event, no window event at all, and the source file
is still deleted when the deletion policy is true. -/
theorem probe_failure_fatal (audio : String) (del : Bool) (env : Env)
    (fs : FS) (msg : String) (hm : env.modelLoad = .ok ())
    (hp : env.probe = .error msg) :
    (streaming_transcribe audio del env fs).events = [Event.error msg]
  ∧ (del = true → audio ∉ (streaming_transcribe audio del env fs).fs) := by
  constructor
  · unfold streaming_transcribe
    rw [hm, hp]
  · intro hdel
    subst hdel
    rw [streaming_fs_eq audio true env fs hm]
    split_ifs with h
    · simp [mem_fsRemove]
    · intro hmem
      unfold preFinalFS at h hmem
      rw [hp] at h hmem
      exact h ⟨rfl, hmem⟩

/-- Witness for C7: corrupt-file probe with deletion policy true. -/
theorem probe_failure_fatal_witness :
    envProbeFail.modelLoad = .ok () ∧ envProbeFail.probe = .error "corrupt"
  ∧ (streaming_transcribe "a.mp3" true envProbeFail ["a.mp3"]).events
      = [Event.error "corrupt"]
  ∧ (true = true → "a.mp3" ∉ (streaming_transcribe "a.mp3" true envProbeFail ["a.mp3"]).fs) :=
  ⟨rfl, rfl,
    (probe_failure_fatal "a.mp3" true envProbeFail ["a.mp3"] "corrupt" rfl rfl).1,
    (probe_failure_fatal "a.mp3" true envProbeFail ["a.mp3"] "corrupt" rfl rfl).2⟩

/-- C8 (counterexample): the claim that every emitted event carries the
fields chunk_index/chunk_id, total_chunks, chunk_text, segments and
is_final is false: the event emitted for a failed window serializes a
dict whose only key is error. -/
theorem error_event_omits_index_fields :
    (streaming_transcribe "a.mp3" true envFailT ["a.mp3"]).events
      = [Event.error "Error processing chunk 0: boom"]
  ∧ "chunk_id" ∉ eventKeys (Event.error "Error processing chunk 0: boom")
  ∧ "total_chunks" ∉ eventKeys (Event.error "Error processing chunk 0: boom")
  ∧ "is_final" ∉ eventKeys (Event.error "Error processing chunk 0: boom") := by
  refine ⟨?_, by decide, by decide, by decide⟩
  norm_num [streaming_transcribe, envFailT, total_chunks, pyInt, chunk_duration,
    List.range_succ, runWindows, stepWindow, end_time, start_time, skipped]
  decide

/-- C8 (amended): exactly one event is produced per planned non-skipped
window; a success event carries exactly the keys chunk_id, total_chunks,
chunk_text, segments, is_final, while a window-local error is replaced by
an event whose only key is error (the window index appears only inside
the message). -/
theorem event_shape_amended (audio : String) (del : Bool) (env : Env) (fs : FS)
    (d : ℚ) (hm : env.modelLoad = .ok ()) (hp : env.probe = .ok d) :
    (streaming_transcribe audio del env fs).events
      = (List.range (total_chunks d chunk_duration).toNat).filterMap
          (windowEvent env d (total_chunks d chunk_duration))
  ∧ (∀ i, windowEvent env d (total_chunks d chunk_duration) i = none ↔ skipped d i)
  ∧ (∀ i msg, ¬ skipped d i →
      env.window i = .extractFail msg ∨ env.window i = .transcribeFail msg →
      ∃ e, windowEvent env d (total_chunks d chunk_duration) i = some e
        ∧ eventKeys e = ["error"])
  ∧ (∀ i r, ¬ skipped d i → env.window i = .ok r →
      ∃ e, windowEvent env d (total_chunks d chunk_duration) i = some e
        ∧ eventKeys e
            = ["chunk_id", "total_chunks", "chunk_text", "segments", "is_final"]) := by
  refine ⟨?_, ?_, ?_, ?_⟩
  · unfold streaming_transcribe
    rw [hm, hp]
    exact runWindows_events audio env d (total_chunks d chunk_duration)
      (List.range (total_chunks d chunk_duration).toNat) fs
  · intro i
    unfold windowEvent
    by_cases hs : skipped d i
    · rw [if_pos hs]
      simp [hs]
    · rw [if_neg hs]
      cases env.window i <;> simp [hs]
  · intro i msg hns hw
    unfold windowEvent
    rw [if_neg hns]
    rcases hw with hw | hw <;> rw [hw] <;>
      exact ⟨_, rfl, rfl⟩
  · intro i r hns hw
    unfold windowEvent
    rw [if_neg hns, hw]
    exact ⟨_, rfl, rfl⟩

/-- Witness for C8: the five-window mixed scenario. -/
theorem event_shape_amended_witness :
    envMixed.modelLoad = .ok () ∧ envMixed.probe = .ok 130
  ∧ ((streaming_transcribe "b.mp3" true envMixed ["b.mp3"]).events
      = (List.range (total_chunks 130 chunk_duration).toNat).filterMap
          (windowEvent envMixed 130 (total_chunks 130 chunk_duration))
    ∧ (∀ i, windowEvent envMixed 130 (total_chunks 130 chunk_duration) i = none
        ↔ skipped 130 i)
    ∧ (∀ i msg, ¬ skipped 130 i →
        envMixed.window i = .extractFail msg ∨ envMixed.window i = .transcribeFail msg →
        ∃ e, windowEvent envMixed 130 (total_chunks 130 chunk_duration) i = some e
          ∧ eventKeys e = ["error"])
    ∧ (∀ i r, ¬ skipped 130 i → envMixed.window i = .ok r →
        ∃ e, windowEvent envMixed 130 (total_chunks 130 chunk_duration) i = some e
          ∧ eventKeys e
              = ["chunk_id", "total_chunks", "chunk_text", "segments", "is_final"])) :=
  ⟨rfl, rfl, event_shape_amended "b.mp3" true envMixed ["b.mp3"] 130 rfl rfl⟩

/-- C9: for every run that reaches the end of the stream, the source file
is afterwards on disk iff the deletion policy flag was false, regardless
of window outcomes; the podcast entry point passes
delete_on_complete=False and so never deletes its source. -/
theorem source_deletion_policy (audio : String) (del : Bool) (env : Env) (fs : FS)
    (hm : env.modelLoad = .ok ()) (hsrc : audio ∈ fs) :
    (audio ∈ (streaming_transcribe audio del env fs).fs ↔ del = false)
  ∧ audio ∈ (transcribe_podcast_stream audio env fs).fs := by
  have key : ∀ b : Bool, audio ∈ (streaming_transcribe audio b env fs).fs ↔ b = false := by
    intro b
    rw [streaming_fs_eq audio b env fs hm]
    cases b with
    | true =>
        rw [if_pos ⟨rfl, preFinal_mem hsrc⟩]
        simp [mem_fsRemove]
    | false =>
        rw [if_neg (by rintro ⟨h, -⟩; exact Bool.false_ne_true h)]
        simp [preFinal_mem hsrc]
  exact ⟨key del, (key false).mpr rfl⟩

/-- Witness for C9 on the 65 s scenario with deletion policy true. -/
theorem source_deletion_policy_witness :
    envOk65.modelLoad = .ok () ∧ "a.mp3" ∈ (["a.mp3"] : FS)
  ∧ (("a.mp3" ∈ (streaming_transcribe "a.mp3" true envOk65 ["a.mp3"]).fs) ↔ true = false)
  ∧ "a.mp3" ∈ (transcribe_podcast_stream "a.mp3" envOk65 ["a.mp3"]).fs :=
  ⟨rfl, by simp,
    (source_deletion_policy "a.mp3" true envOk65 ["a.mp3"] rfl (by simp)).1,
    (source_deletion_policy "a.mp3" true envOk65 ["a.mp3"] rfl (by simp)).2⟩

/-- C10: the model is loaded before the try/finally: when loading raises,
the generator produces no event, the file system is untouched (so the
source survives even with deletion policy true), and the exception
escapes to the consumer. -/
theorem model_load_failure_escapes (audio : String) (del : Bool) (env : Env)
    (fs : FS) (msg : String) (hm : env.modelLoad = .error msg) :
    streaming_transcribe audio del env fs = ⟨[], fs, some msg⟩ := by
  unfold streaming_transcribe
  rw [hm]

/-- Witness for C10: a failing model load with deletion policy true. -/
theorem model_load_failure_escapes_witness :
    envLoadFail.modelLoad = .error "no model" ∧
    streaming_transcribe "a.mp3" true envLoadFail ["a.mp3"]
      = ⟨[], ["a.mp3"], some "no model"⟩ :=
  ⟨rfl, model_load_failure_escapes "a.mp3" true envLoadFail ["a.mp3"] "no model" rfl⟩
